import Mathlib

/-!
Shallow embedding of the scene/document core of the figma-clone-python
repository: the component data model (src/components/*.py), the canvas
manager with its snapshot-based undo/redo history
(src/canvas/canvas_manager.py), the alignment helper
(src/utils/alignment_helper.py) and the design-data validator
(src/utils/file_manager.py).

Modelling conventions:
- Python numbers (ints and floats used for geometry) are modelled as `Rat`,
  so that the divisions performed by distribution spacing and proportional
  group resize are exact.
- `uuid.uuid4()` is modelled by an explicit supply `u : Nat → String` of
  fresh identifier strings together with a counter index; every function
  of the source that draws fresh uuids takes the supply and a starting
  index as extra arguments.
- In-place mutation of Python objects is modelled by explicit state
  passing: methods that mutate `self` return the updated value, and
  `CanvasManager` methods return the updated manager.
- Python dictionaries produced by `to_dict` are modelled as association
  lists `List (String × JsonV)` over a JSON-like value type.
-/

/-- JSON-like values, the codomain of `to_dict` and the payload of history
snapshots and persisted designs. `jbool` is kept separate from `jnum`
because `json.load` produces Python `bool` for JSON booleans; note that
Python's `isinstance(b, int)` is `True` for `bool` (see
`validate_design_data`). -/
inductive JsonV where
  | jnull
  | jbool (b : Bool)
  | jnum (q : Rat)
  | jstr (s : String)
  | jlist (items : List JsonV)
  | jdict (fields : List (String × JsonV))

/-- Dictionary lookup, `d[k]` / `k in d` on a Python dict modelled as an
association list (keys are unique in every dict the source builds). -/
def jlookup (fields : List (String × JsonV)) (k : String) : Option JsonV :=
  fields.lookup k

/-- Python `data.get(k, dflt)` where the caller expects a number. If the
key is present but holds a non-numeric value the source would store that
ill-typed value in the numeric attribute; such records never arise from
the source's own serializer, and the model falls back to the default in
that case. -/
def getNum (fields : List (String × JsonV)) (k : String) (dflt : Rat) : Rat :=
  match jlookup fields k with
  | some (.jnum q) => q
  | _ => dflt

/-- Python `data.get(k, dflt)` where the caller expects a string (same
convention as `getNum` for ill-typed values). -/
def getStr (fields : List (String × JsonV)) (k : String) (dflt : String) : String :=
  match jlookup fields k with
  | some (.jstr s) => s
  | _ => dflt

/-- Shared attribute record of `BaseComponent.__init__`
(src/components/base_component.py, lines 11-33). `parent_group` models
the optional `parent_group` attribute: `none` stands for the attribute
being absent (never assigned) or set to Python `None`; the source only
ever reads it through `hasattr(...) and ... is not None`, which cannot
distinguish the two. The transient `canvas_items` list (tkinter item ids)
belongs to the out-of-scope rendering layer and is not modelled. -/
structure BaseComponent where
  id : String
  x : Rat
  y : Rat
  width : Rat
  height : Rat
  selected : Bool
  fill_color : String
  border_color : String
  border_width : Rat
  text_color : String
  font_family : String
  font_size : Rat
  font_weight : String
  text : String
  corner_radius : Rat
  opacity : Rat
  parent_group : Option String
  deriving DecidableEq, Repr

/-- The closed polymorphic component type: the five concrete variants of
`BaseComponent` registered in `CanvasManager.component_classes`. Variant
payloads carry the extra attributes each subclass adds (`placeholder_*`
for InputFieldComponent, `text_align` for TextLabelComponent, `group_id`
and `children` for GroupComponent). -/
inductive Comp where
  | rectangle (b : BaseComponent)
  | button (b : BaseComponent)
  | inputField (b : BaseComponent) (placeholder_text placeholder_color : String)
  | textLabel (b : BaseComponent) (text_align : String)
  | group (b : BaseComponent) (group_id : String) (children : List Comp)

/-- Shared-field projection: the `BaseComponent` portion of any variant. -/
def Comp.base : Comp → BaseComponent
  | .rectangle b => b
  | .button b => b
  | .inputField b _ _ => b
  | .textLabel b _ => b
  | .group b _ _ => b

/-- Replace the shared fields, keeping the variant and its extras. -/
def Comp.withBase : Comp → BaseComponent → Comp
  | .rectangle _, b => .rectangle b
  | .button _, b => .button b
  | .inputField _ pt pc, b => .inputField b pt pc
  | .textLabel _ ta, b => .textLabel b ta
  | .group _ gid ch, b => .group b gid ch

/-- Values of `get_component_type` per variant. -/
def Comp.get_component_type : Comp → String
  | .rectangle _ => "rectangle"
  | .button _ => "button"
  | .inputField _ _ _ => "input"
  | .textLabel _ _ => "text"
  | .group _ _ _ => "group"

/-- Children of a group; `[]` for every other variant. -/
def Comp.children_list : Comp → List Comp
  | .group _ _ ch => ch
  | _ => []

/-- Discriminator for the group variant (`is_group` in the source is set
only by `GroupComponent.__init__`). -/
def Comp.is_group : Comp → Bool
  | .group _ _ _ => true
  | _ => false

/-- Attribute defaults assigned by `BaseComponent.__init__`
(src/components/base_component.py, lines 11-33); `text` is initialised
from the virtual `get_default_text()`, so the subclass value is passed
in, and `cid` is the freshly drawn uuid. -/
def base_init (cid : String) (x y width height : Rat) (dtext : String) : BaseComponent :=
  { id := cid, x := x, y := y, width := width, height := height
    selected := false
    fill_color := "#3b82f6", border_color := "#1e40af", border_width := 2
    text_color := "#ffffff", font_family := "Arial", font_size := 12
    font_weight := "normal"
    text := dtext, corner_radius := 0, opacity := 1
    parent_group := none }

/-- Constructor `RectangleComponent(x, y)` (src/components/rectangle.py,
lines 10-15): base defaults with width 120, height 80, then overrides
fill, border and corner radius. -/
def RectangleComponent (cid : String) (x y : Rat) : Comp :=
  .rectangle { base_init cid x y 120 80 "" with
    fill_color := "#e5e7eb", border_color := "#6b7280", corner_radius := 8 }

/-- Constructor `ButtonComponent(x, y)` (src/components/button.py,
lines 10-17). -/
def ButtonComponent (cid : String) (x y : Rat) : Comp :=
  .button { base_init cid x y 120 40 "Button" with
    fill_color := "#3b82f6", border_color := "#1e40af", text_color := "#ffffff",
    corner_radius := 6, font_weight := "bold" }

/-- Constructor `InputFieldComponent(x, y)` (src/components/input_field.py,
lines 10-18). -/
def InputFieldComponent (cid : String) (x y : Rat) : Comp :=
  .inputField
    { base_init cid x y 200 36 "" with
      fill_color := "#ffffff", border_color := "#d1d5db", text_color := "#374151",
      corner_radius := 4 }
    "Enter text..." "#9ca3af"

/-- Constructor `TextLabelComponent(x, y)` (src/components/text_label.py,
lines 10-18). -/
def TextLabelComponent (cid : String) (x y : Rat) : Comp :=
  .textLabel
    { base_init cid x y 100 30 "Text Label" with
      fill_color := "", border_color := "", border_width := 0,
      text_color := "#374151", font_size := 14 }
    "left"

/-- The bounding-box computation `GroupComponent._calculate_bounds`
(src/components/group.py, lines 33-43): returns
`(min x, min y, max (x+width) − min x, max (y+height) − min y)` over the
children, or `(0, 0, 100, 100)` for an empty children list. Python's
`min`/`max` over a generator are modelled as left folds from the first
element. -/
def calculate_bounds (children : List Comp) : Rat × Rat × Rat × Rat :=
  match children with
  | [] => (0, 0, 100, 100)
  | c :: cs =>
      let min_x := cs.foldl (fun m d => min m d.base.x) c.base.x
      let min_y := cs.foldl (fun m d => min m d.base.y) c.base.y
      let max_x := cs.foldl (fun m d => max m (d.base.x + d.base.width)) (c.base.x + c.base.width)
      let max_y := cs.foldl (fun m d => max m (d.base.y + d.base.height)) (c.base.y + c.base.height)
      (min_x, min_y, max_x - min_x, max_y - min_y)

/-- Constructor `GroupComponent(components, x, y)`
(src/components/group.py, lines 11-23): with a non-empty children list
the x/y arguments are ignored and the base is initialised from
`_calculate_bounds`; with an empty list the base is initialised at
`(x, y, 100, 100)`. `cid` is the uuid drawn by `BaseComponent.__init__`
and `gid` the one drawn for `group_id`. The default text is
`"Group (<n> items)"`. The constructor stores the children list as given
and never touches any child's `parent_group` (only `add_child` does). -/
def GroupComponent (children : List Comp) (x y : Rat) (cid gid : String) : Comp :=
  let dtext := "Group (" ++ toString children.length ++ " items)"
  match children with
  | [] => .group (base_init cid x y 100 100 dtext) gid []
  | c :: cs =>
      let bd := calculate_bounds (c :: cs)
      .group (base_init cid bd.1 bd.2.1 bd.2.2.1 bd.2.2.2 dtext) gid (c :: cs)

/-- Method `set_position(x, y)` (src/components/base_component.py, lines
65-68): absolute position set, no clamping. GroupComponent does not
override it, so on a group only the group's own recorded geometry moves. -/
def Comp.set_position (x y : Rat) (c : Comp) : Comp :=
  c.withBase { c.base with x := x, y := y }

/-- Method `get_bounds()` (src/components/base_component.py, lines 70-72). -/
def Comp.get_bounds (c : Comp) : Rat × Rat × Rat × Rat :=
  (c.base.x, c.base.y, c.base.width, c.base.height)

mutual

/-- Method `move(dx, dy)`: `BaseComponent.move` translates x and y
(src/components/base_component.py, lines 55-58); `GroupComponent.move`
first moves every child, then the group's own geometry
(src/components/group.py, lines 119-126). -/
def Comp.move (dx dy : Rat) : Comp → Comp
  | .group b gid ch =>
      .group { b with x := b.x + dx, y := b.y + dy } gid (Comp.move_list dx dy ch)
  | c => c.withBase { c.base with x := c.base.x + dx, y := c.base.y + dy }

/-- The `for child in self.children: child.move(dx, dy)` loop of
`GroupComponent.move`. -/
def Comp.move_list (dx dy : Rat) : List Comp → List Comp
  | [] => []
  | c :: cs => Comp.move dx dy c :: Comp.move_list dx dy cs

end

mutual

/-- Structural size of a component (number of component nodes in its
subtree), used only as the termination measure of `Comp.resize`. -/
def Comp.csize : Comp → Nat
  | .group _ _ ch => Comp.csizeList ch + 1
  | _ => 1

/-- Structural size of a children list (see `Comp.csize`). -/
def Comp.csizeList : List Comp → Nat
  | [] => 0
  | c :: cs => Comp.csize c + Comp.csizeList cs + 1

end

/-- Repositioning a component does not change its structural size. -/
theorem csize_set_position (x y : Rat) (c : Comp) :
    (Comp.set_position x y c).csize = c.csize := by
  cases c <;> simp [Comp.set_position, Comp.withBase, Comp.base, Comp.csize]

mutual

/-- Method `resize(width, height)`: `BaseComponent.resize` clamps both
axes to a minimum of 10 (src/components/base_component.py, lines 60-63);
`GroupComponent.resize` (src/components/group.py, lines 128-159) returns
unchanged when it has no children or zero width/height, and otherwise
rescales every child proportionally (each child clamped to minimum 10)
and then sets the group's own width and height to the requested values
without clamping. -/
def Comp.resize (w h : Rat) : Comp → Comp
  | .group b gid ch =>
      if ch.isEmpty ∨ b.width = 0 ∨ b.height = 0 then .group b gid ch
      else
        .group { b with width := w, height := h } gid
          (Comp.resize_children b.x b.y b.width b.height w h ch)
  | c => c.withBase { c.base with width := max 10 w, height := max 10 h }
termination_by c => c.csize
decreasing_by
  simp [Comp.csize, Comp.csizeList]

/-- The child-rescaling loop of `GroupComponent.resize`
(src/components/group.py, lines 141-155): for each child, compute its
relative position and size within the old group box, map the fractions
into the new box, `set_position` to the new spot and `resize` to
`max(10, new_w) × max(10, new_h)`. -/
def Comp.resize_children (gx gy gw gh w h : Rat) : List Comp → List Comp
  | [] => []
  | c :: cs =>
      let rel_x := (c.base.x - gx) / gw
      let rel_y := (c.base.y - gy) / gh
      let rel_w := c.base.width / gw
      let rel_h := c.base.height / gh
      let new_x := gx + rel_x * w
      let new_y := gy + rel_y * h
      let new_w := rel_w * w
      let new_h := rel_h * h
      Comp.resize (max 10 new_w) (max 10 new_h) (Comp.set_position new_x new_y c)
        :: Comp.resize_children gx gy gw gh w h cs
termination_by l => Comp.csizeList l
decreasing_by
  all_goals simp [Comp.csizeList, csize_set_position]
  all_goals omega

end

/-- Method `GroupComponent.add_child(component)` (src/components/group.py,
lines 51-56): appends the component when not already a child, sets its
`parent_group` back-reference and recomputes the bounds. Membership is
Python identity, modelled by uuid equality. This is the only place that
ever sets `parent_group` to a group. -/
def Comp.add_child (child : Comp) : Comp → Comp
  | .group b gid ch =>
      if ch.any (fun c => c.base.id = child.base.id) then .group b gid ch
      else
        let ch2 := ch ++ [child.withBase { child.base with parent_group := some gid }]
        let bd := calculate_bounds ch2
        .group { b with x := bd.1, y := bd.2.1, width := bd.2.2.1, height := bd.2.2.2 } gid ch2
  | c => c

/-- Method `GroupComponent.ungroup()` (src/components/group.py, lines
168-175): clears every child's `parent_group`, empties the group's
children list and returns the released children. -/
def Comp.ungroup : Comp → Comp × List Comp
  | .group b gid ch =>
      (.group b gid [], ch.map (fun c => c.withBase { c.base with parent_group := none }))
  | c => (c, [])

/-- Shared serialized fields of `BaseComponent.to_dict`
(src/components/base_component.py, lines 92-111), in source order. -/
def base_to_dict (c : Comp) : List (String × JsonV) :=
  [ ("id", .jstr c.base.id)
  , ("type", .jstr c.get_component_type)
  , ("x", .jnum c.base.x)
  , ("y", .jnum c.base.y)
  , ("width", .jnum c.base.width)
  , ("height", .jnum c.base.height)
  , ("text", .jstr c.base.text)
  , ("fill_color", .jstr c.base.fill_color)
  , ("border_color", .jstr c.base.border_color)
  , ("border_width", .jnum c.base.border_width)
  , ("text_color", .jstr c.base.text_color)
  , ("font_family", .jstr c.base.font_family)
  , ("font_size", .jnum c.base.font_size)
  , ("font_weight", .jstr c.base.font_weight)
  , ("corner_radius", .jnum c.base.corner_radius)
  , ("opacity", .jnum c.base.opacity) ]

mutual

/-- Method `to_dict()`: the shared record of `BaseComponent.to_dict` plus
the variant extras added by the overrides — `placeholder_text` and
`placeholder_color` for InputFieldComponent (input_field.py, lines
163-168), `text_align` for TextLabelComponent (text_label.py, lines
142-146), and `group_id` plus the recursively serialized `children`
subtree for GroupComponent (group.py, lines 177-184). -/
def Comp.to_dict (c : Comp) : List (String × JsonV) :=
  match c with
  | .rectangle _ => base_to_dict c
  | .button _ => base_to_dict c
  | .inputField _ pt pc =>
      base_to_dict c ++ [("placeholder_text", .jstr pt), ("placeholder_color", .jstr pc)]
  | .textLabel _ ta => base_to_dict c ++ [("text_align", .jstr ta)]
  | .group _ gid ch =>
      base_to_dict c ++ [("group_id", .jstr gid), ("children", .jlist (Comp.to_dict_list ch))]

/-- The `[child.to_dict() for child in self.children]` comprehension of
`GroupComponent.to_dict`. -/
def Comp.to_dict_list : List Comp → List JsonV
  | [] => []
  | c :: cs => .jdict c.to_dict :: Comp.to_dict_list cs

end

/-- Method `from_dict(data)` (src/components/base_component.py, lines
113-129, plus the variant overrides): every field falls back to the
current attribute value when the key is missing. For GroupComponent
(group.py, lines 186-190) it additionally sets `group_id` — with a fresh
uuid as fallback, modelled by `fallback_gid` — and, per the source's own
comment, does NOT reconstruct the serialized `children` ("children will
be reconstructed by the canvas manager"), so the children list is left
as it is on `self`. -/
def Comp.from_dict (fallback_gid : String) (data : List (String × JsonV)) (c : Comp) : Comp :=
  let b := c.base
  let b2 : BaseComponent :=
    { b with
      id := getStr data "id" b.id
      x := getNum data "x" b.x
      y := getNum data "y" b.y
      width := getNum data "width" b.width
      height := getNum data "height" b.height
      text := getStr data "text" b.text
      fill_color := getStr data "fill_color" b.fill_color
      border_color := getStr data "border_color" b.border_color
      border_width := getNum data "border_width" b.border_width
      text_color := getStr data "text_color" b.text_color
      font_family := getStr data "font_family" b.font_family
      font_size := getNum data "font_size" b.font_size
      font_weight := getStr data "font_weight" b.font_weight
      corner_radius := getNum data "corner_radius" b.corner_radius
      opacity := getNum data "opacity" b.opacity }
  match c with
  | .rectangle _ => .rectangle b2
  | .button _ => .button b2
  | .inputField _ pt pc =>
      .inputField b2 (getStr data "placeholder_text" pt) (getStr data "placeholder_color" pc)
  | .textLabel _ ta => .textLabel b2 (getStr data "text_align" ta)
  | .group _ _ ch => .group b2 (getStr data "group_id" fallback_gid) ch

/-- Replace (or append) one key of a serialized record: the
`clone_data['id'] = ...` / `clone_data['x'] += 20` updates of
`BaseComponent.clone`. -/
def setKey (k : String) (v : JsonV) : List (String × JsonV) → List (String × JsonV)
  | [] => [(k, v)]
  | (k2, v2) :: rest => if k2 = k then (k, v) :: rest else (k2, v2) :: setKey k v rest

/-- The no-argument constructor call `component_class()` performed by
`BaseComponent.clone` and by the loaders: each variant's defaults at
position (0, 0). A group built this way has an empty children list
(`GroupComponent()` takes the `components=None` branch). `cid` and `gid`
are the uuids drawn by the constructor (`gid` is unused except for
groups). -/
def component_class_default : String → String → String → Option Comp
  | "rectangle", cid, _ => some (RectangleComponent cid 0 0)
  | "button", cid, _ => some (ButtonComponent cid 0 0)
  | "input", cid, _ => some (InputFieldComponent cid 0 0)
  | "text", cid, _ => some (TextLabelComponent cid 0 0)
  | "group", cid, gid => some (GroupComponent [] 0 0 cid gid)
  | _, _, _ => none

mutual

/-- Method `clone()` with the uuid supply made explicit; returns the
clone together with the next unused supply index.
`BaseComponent.clone` (base_component.py, lines 131-142) serializes
`self`, overwrites the id with a fresh uuid and offsets x and y by 20,
then builds a fresh default instance of the same class and loads the
record into it with `from_dict`. `GroupComponent.clone` (group.py, lines
192-196) instead clones every child recursively and rebuilds the group
from the cloned children via `GroupComponent(cloned_children, x+20, y+20)`
(whose constructor recomputes the geometry from the cloned children and
resets every style field to the constructor defaults). -/
def Comp.clone (u : Nat → String) (k : Nat) (c : Comp) : Comp × Nat :=
  match c with
  | .group b _ ch =>
      let (cch, k2) := Comp.clone_list u k ch
      (GroupComponent cch (b.x + 20) (b.y + 20) (u k2) (u (k2 + 1)), k2 + 2)
  | c =>
      let clone_data := setKey "id" (.jstr (u k)) c.to_dict
      let clone_data := setKey "x" (.jnum (c.base.x + 20)) clone_data
      let clone_data := setKey "y" (.jnum (c.base.y + 20)) clone_data
      match component_class_default c.get_component_type (u (k + 1)) (u (k + 2)) with
      | some fresh => (Comp.from_dict (u (k + 3)) clone_data fresh, k + 4)
      | none => (c, k)

/-- The `[child.clone() for child in self.children]` comprehension of
`GroupComponent.clone`, threading the uuid supply. -/
def Comp.clone_list (u : Nat → String) (k : Nat) : List Comp → List Comp × Nat
  | [] => ([], k)
  | c :: cs =>
      let (c2, k2) := Comp.clone u k c
      let (cs2, k3) := Comp.clone_list u k2 cs
      (c2 :: cs2, k3)

end

/-- The keys of the `CanvasManager.component_classes` factory dictionary
(src/canvas/canvas_manager.py, lines 27-33): the five known component
types. -/
def component_class_keys : List String :=
  ["rectangle", "button", "input", "text", "group"]

/-- State of `CanvasManager` (src/canvas/canvas_manager.py, lines 14-24):
the root component sequence, the single selection, the multi-selection
list, and the undo history (list of serialized snapshots plus a cursor
starting at −1). The `canvas` reference belongs to the out-of-scope
rendering layer and is not modelled. -/
structure CanvasManager where
  components : List Comp
  selected_component : Option Comp
  selected_components : List Comp
  history : List JsonV
  history_index : Int

/-- Initial state of `CanvasManager.__init__`. -/
def CanvasManager.init : CanvasManager :=
  { components := [], selected_component := none, selected_components := []
    history := [], history_index := -1 }

/-- The history cap `self.max_history = 50`. -/
def max_history : Nat := 50

/-- Method `get_design_data()` (canvas_manager.py, lines 153-158). -/
def CanvasManager.get_design_data (m : CanvasManager) : JsonV :=
  .jdict [("version", .jstr "1.0"), ("components", .jlist (Comp.to_dict_list m.components))]

/-- Method `_save_state()` (canvas_manager.py, lines 182-195): truncate
the history to `history_index + 1` entries, append the current
serialization; when the list then exceeds `max_history`, evict the
oldest entry and leave the cursor alone, otherwise advance the cursor. -/
def CanvasManager.save_state (m : CanvasManager) : CanvasManager :=
  let hist := m.history.take (m.history_index + 1).toNat ++ [m.get_design_data]
  if hist.length > max_history then { m with history := hist.drop 1 }
  else { m with history := hist, history_index := m.history_index + 1 }

/-- The component-reconstruction loop shared by `load_design`
(canvas_manager.py, lines 166-176) and `_restore_state` (lines 222-232):
for each record, read its `type`; when the type is a key of
`component_classes`, construct `component_class()` with default
arguments, load the record into it with `from_dict` and append it;
records with a missing or unknown type are silently skipped. Per record
the model reserves three uuid-supply slots (constructor id, constructor
group id, `from_dict` group-id fallback). A record that is not a
dictionary would raise `AttributeError` in the source; such records
never occur in serialized documents and are skipped by the model (the
theorems below only quantify over dictionary records). -/
def build_components (u : Nat → String) (k : Nat) : List JsonV → List Comp
  | [] => []
  | r :: rs =>
      match r with
      | .jdict fields =>
          match jlookup fields "type" with
          | some (.jstr t) =>
              if t ∈ component_class_keys then
                match component_class_default t (u k) (u (k + 1)) with
                | some fresh =>
                    Comp.from_dict (u (k + 2)) fields fresh ::
                      build_components u (k + 3) rs
                | none => build_components u (k + 3) rs
              else build_components u (k + 3) rs
          | _ => build_components u (k + 3) rs
      | _ => build_components u (k + 3) rs

/-- The `design_data.get('components', [])` read of `load_design` and the
`state.get('components', [])` read of `_restore_state`. -/
def components_records : JsonV → List JsonV
  | .jdict fields =>
      match jlookup fields "components" with
      | some (.jlist l) => l
      | _ => []
  | _ => []

/-- Method `_restore_state(state)` (canvas_manager.py, lines 211-232):
replaces the root components with the ones rebuilt from the snapshot and
clears the single selection. -/
def CanvasManager.restore_state (u : Nat → String) (k : Nat) (state : JsonV)
    (m : CanvasManager) : CanvasManager :=
  { m with components := build_components u k (components_records state)
           selected_component := none }

/-- Method `undo()` (canvas_manager.py, lines 197-202): no-op unless
`history_index > 0`; otherwise decrement the cursor and restore the
entry it now points at (always in range in the source, so the model's
out-of-range default is never reached). -/
def CanvasManager.undo (u : Nat → String) (k : Nat) (m : CanvasManager) : CanvasManager :=
  if m.history_index > 0 then
    let i := m.history_index - 1
    let m2 := { m with history_index := i }
    m2.restore_state u k (m.history.getD i.toNat (.jdict []))
  else m

/-- Method `redo()` (canvas_manager.py, lines 204-209). -/
def CanvasManager.redo (u : Nat → String) (k : Nat) (m : CanvasManager) : CanvasManager :=
  if m.history_index < m.history.length - 1 then
    let i := m.history_index + 1
    let m2 := { m with history_index := i }
    m2.restore_state u k (m.history.getD i.toNat (.jdict []))
  else m

/-- Method `clear_canvas()` (canvas_manager.py, lines 139-151): snapshot
only when there is at least one component, then empty the root sequence
and the single selection. -/
def CanvasManager.clear_canvas (m : CanvasManager) : CanvasManager :=
  let m1 := if m.components.isEmpty then m else m.save_state
  { m1 with components := [], selected_component := none }

/-- Method `load_design(design_data)` (canvas_manager.py, lines 160-180):
clear the canvas, rebuild the components from the records (silently
skipping records with missing or unknown `type`), then clear the history
and reset the cursor to −1. -/
def CanvasManager.load_design (u : Nat → String) (k : Nat) (design_data : JsonV)
    (m : CanvasManager) : CanvasManager :=
  let m1 := m.clear_canvas
  let m2 := { m1 with
    components := m1.components ++ build_components u k (components_records design_data) }
  { m2 with history := [], history_index := -1 }

/-- Method `add_component(component_type, x, y)` (canvas_manager.py,
lines 39-58): `none` and no state change for an unknown type; otherwise
snapshot first, then construct `component_class(x, y)` and append it.
For the four leaf types the constructor takes `(x, y)` positionally; for
type `"group"` the call `GroupComponent(x, y)` binds `x` to the
`components` parameter and raises `TypeError` when computing the bounds,
so the manager is left with the snapshot taken and nothing appended —
modelled by returning `none` after the snapshot. -/
def CanvasManager.add_component (ty : String) (x y : Rat) (u : Nat → String) (k : Nat)
    (m : CanvasManager) : CanvasManager × Option Comp :=
  if ty ∈ component_class_keys then
    let m1 := m.save_state
    match (match ty with
      | "rectangle" => some (RectangleComponent (u k) x y)
      | "button" => some (ButtonComponent (u k) x y)
      | "input" => some (InputFieldComponent (u k) x y)
      | "text" => some (TextLabelComponent (u k) x y)
      | _ => none) with
    | some comp => ({ m1 with components := m1.components ++ [comp] }, some comp)
    | none => (m1, none)
  else (m, none)

/-- Removal of the first occurrence of a component from a list; Python's
`list.remove` compares by `__eq__`, which for components is object
identity, modelled by uuid equality. -/
def removeById (cid : String) : List Comp → List Comp
  | [] => []
  | c :: cs => if c.base.id = cid then cs else c :: removeById cid cs

/-- Method `delete_component(component)` (canvas_manager.py, lines
60-75): no-op when the component is not a root member; otherwise
snapshot, remove it, and clear the single selection if it was selected. -/
def CanvasManager.delete_component (c : Comp) (m : CanvasManager) : CanvasManager :=
  if m.components.any (fun d => d.base.id = c.base.id) then
    let m1 := m.save_state
    let m2 := { m1 with components := removeById c.base.id m1.components }
    match m2.selected_component with
    | some s => if s.base.id = c.base.id then { m2 with selected_component := none } else m2
    | none => m2
  else m

/-- Method `is_component_grouped(component)` (canvas_manager.py, lines
404-406): `hasattr(component, 'parent_group') and component.parent_group
is not None`. -/
def CanvasManager.is_component_grouped (c : Comp) : Bool :=
  c.base.parent_group.isSome

/-- Method `group_selected_components()` (canvas_manager.py, lines
348-375): requires at least two multi-selected components, else `none`
with no state change. Otherwise snapshot, build a `GroupComponent`
directly from the selection (the constructor stores the list as is and
never sets any child's `parent_group`), remove those components from the
root sequence, append the group, clear the multi-selection (which
deselects the very objects now inside the group) and single-select the
group. The selection flags are modelled on the group value itself; the
`parent_group` field of every child is untouched throughout. -/
def CanvasManager.group_selected_components (u : Nat → String) (k : Nat)
    (m : CanvasManager) : CanvasManager × Option Comp :=
  if m.selected_components.length < 2 then (m, none)
  else
    let m1 := m.save_state
    let to_group := m.selected_components
    let g0 := GroupComponent to_group 0 0 (u k) (u (k + 1))
    let comps := to_group.foldl (fun acc c => removeById c.base.id acc) m1.components
    let deselected := to_group.map (fun c => c.withBase { c.base with selected := false })
    let g1 := (GroupComponent deselected 0 0 (u k) (u (k + 1))).withBase
      { g0.base with selected := true }
    ({ m1 with components := comps ++ [g1]
               selected_components := []
               selected_component := some g1 }, some g1)

/-- The `snap_threshold = 10` default of `AlignmentHelper.__init__`
(src/utils/alignment_helper.py, line 12), used when `snap_to_components`
is called with `snap_distance=None`. -/
def snap_threshold : Rat := 10

/-- Placement loop of `AlignmentHelper._distribute_horizontal`
(alignment_helper.py, lines 121-126) for the components after the first
(`i > 0`): each is repositioned to the accumulated `current_x`, then
`current_x` advances by that component's width plus the spacing. -/
def place_rest (spacing : Rat) : Rat → List Comp → List Comp
  | _, [] => []
  | current_x, c :: cs =>
      Comp.set_position current_x c.base.y c ::
        place_rest spacing (current_x + c.base.width + spacing) cs

/-- The relation `c.x ≤ d.x` that `sorted(components, key=lambda c: c.x)`
sorts by. -/
def xle (c d : Comp) : Prop := c.base.x ≤ d.base.x

instance : DecidableRel xle := fun c d => inferInstanceAs (Decidable (c.base.x ≤ d.base.x))

instance : IsTotal Comp xle := ⟨fun c d => le_total c.base.x d.base.x⟩

instance : IsTrans Comp xle := ⟨fun _ _ _ h h2 => le_trans h h2⟩

/-- Python's stable `sorted(components, key=lambda c: c.x)`, modelled by
stable insertion sort. -/
def sortByX (l : List Comp) : List Comp :=
  l.insertionSort xle

/-- Method `AlignmentHelper._distribute_horizontal(components)`
(alignment_helper.py, lines 103-128): sort by x; compute
`spacing = (last.x + last.width − first.x − Σ widths) / (n − 1)`; keep
the first component in place and run the accumulated placement loop over
the rest, starting at `first.x + first.width + spacing`; return the
repositioned components (in sorted order — the source mutates them in
place) together with the success flag. A list of length ≤ 1 returns
`False` (on the empty list the source would raise an IndexError before
that guard; callers guarantee at least 3 components). -/
def distribute_horizontal (components : List Comp) : List Comp × Bool :=
  let s := sortByX components
  match s with
  | [] => ([], false)
  | [c] => ([c], false)
  | first :: rest =>
      let last := (first :: rest).getLast (by simp)
      let total_width := last.base.x + last.base.width - first.base.x
      let total_component_width := ((first :: rest).map (fun c => c.base.width)).sum
      let available_space := total_width - total_component_width
      let spacing := available_space / ((first :: rest).length - 1 : Nat)
      (first :: place_rest spacing (first.base.x + first.base.width + spacing) rest, true)

/-- Method `AlignmentHelper.distribute_components(components,
distribution_type)` (alignment_helper.py, lines 87-101): fewer than 3
components is a no-op returning `False`; otherwise dispatch on the
distribution type. Only the `"horizontal"` branch is modelled in full;
the other branches are outside the claims and are modelled as the
returning-`False` fallthrough. -/
def distribute_components (components : List Comp) (distribution_type : String) :
    List Comp × Bool :=
  if components.length < 3 then (components, false)
  else if distribution_type = "horizontal" then distribute_horizontal components
  else (components, false)

/-- The X-axis candidate of one loop iteration of
`AlignmentHelper.snap_to_components` (alignment_helper.py, lines
232-244): the four edge checks in their `if`/`elif` priority order
(left edges, right edges, left to right edge, right to left edge), each
within `snap_distance`. -/
def snap_candidate_x (snap_distance tx tw : Rat) (o : Comp) : Option Rat :=
  let ox := o.base.x
  let ow := o.base.width
  if |tx - ox| ≤ snap_distance then some ox
  else if |tx + tw - (ox + ow)| ≤ snap_distance then some (ox + ow - tw)
  else if |tx - (ox + ow)| ≤ snap_distance then some (ox + ow)
  else if |tx + tw - ox| ≤ snap_distance then some (ox - tw)
  else none

/-- The Y-axis candidate of one loop iteration of `snap_to_components`
(alignment_helper.py, lines 246-258): top edges, bottom edges, top to
bottom edge, bottom to top edge. -/
def snap_candidate_y (snap_distance ty th : Rat) (o : Comp) : Option Rat :=
  let oy := o.base.y
  let oh := o.base.height
  if |ty - oy| ≤ snap_distance then some oy
  else if |ty + th - (oy + oh)| ≤ snap_distance then some (oy + oh - th)
  else if |ty - (oy + oh)| ≤ snap_distance then some (oy + oh)
  else if |ty + th - oy| ≤ snap_distance then some (oy - th)
  else none

/-- Method `AlignmentHelper.snap_to_components(target, others,
snap_distance)` (alignment_helper.py, lines 214-268): iterate over the
other components (skipping the target itself — identity modelled by uuid
equality), overwriting `snap_x` / `snap_y` with each new per-component
candidate; afterwards, if either axis found a candidate, reposition the
target to `(snap_x or tx, snap_y or ty)` and return `True`, else leave
it unchanged and return `False`. -/
def snap_to_components (target : Comp) (others : List Comp) (snap_distance : Rat) :
    Comp × Bool :=
  let tx := target.base.x
  let ty := target.base.y
  let tw := target.base.width
  let th := target.base.height
  let sxy := others.foldl
    (fun acc o =>
      if o.base.id = target.base.id then acc
      else
        ( match snap_candidate_x snap_distance tx tw o with
          | some v => some v
          | none => acc.1
        , match snap_candidate_y snap_distance ty th o with
          | some v => some v
          | none => acc.2 ))
    ((none : Option Rat), (none : Option Rat))
  let new_x := sxy.1.getD tx
  let new_y := sxy.2.getD ty
  if sxy.1.isSome ∨ sxy.2.isSome then (target.set_position new_x new_y, true)
  else (target, false)

/-- The `required_fields` list of `FileManager.validate_design_data`
(src/utils/file_manager.py, line 144). -/
def required_fields : List String :=
  ["id", "type", "x", "y", "width", "height"]

/-- The `valid_types` list of `FileManager.validate_design_data`
(file_manager.py, line 145). Note that it has four entries: `'group'`
is not among them. -/
def valid_types : List String :=
  ["rectangle", "button", "input", "text"]

/-- Python's `isinstance(v, (int, float))`: true for numbers and — since
`bool` is a subclass of `int` — for booleans. -/
def is_numeric : JsonV → Bool
  | .jnum _ => true
  | .jbool _ => true
  | _ => false

/-- The membership test `component['type'] in valid_types`: the stored
value equals one of the type strings (a non-string value equals none of
them). -/
def type_in_valid_types : JsonV → Bool
  | .jstr s => valid_types.contains s
  | _ => false

/-- The per-component validation loop of `validate_design_data`
(file_manager.py, lines 147-164), with the running index `i` used in the
error messages. Checks, in source order: the component is a dictionary;
every required field is present; the type is in `valid_types`; the four
geometry fields are numeric. The first failure is returned. Error
message strings follow the source with the interpolated values spliced
in by concatenation. -/
def validate_components (i : Nat) : List JsonV → Bool × String
  | [] => (true, "Valid design data")
  | comp :: rest =>
      match comp with
      | .jdict fields =>
          match required_fields.find? (fun f => (jlookup fields f).isNone) with
          | some f =>
              (false, "Component " ++ toString i ++ " missing required field " ++ f)
          | none =>
              if !type_in_valid_types ((jlookup fields "type").getD .jnull) then
                (false, "Component " ++ toString i ++ " has invalid type")
              else
                match ["x", "y", "width", "height"].find?
                    (fun f => !is_numeric ((jlookup fields f).getD .jnull)) with
                | some f =>
                    (false, "Component " ++ toString i ++ " field " ++ f ++ " must be numeric")
                | none => validate_components (i + 1) rest
      | _ => (false, "Component " ++ toString i ++ " must be a dictionary")

/-- Method `FileManager.validate_design_data(design_data)`
(file_manager.py, lines 130-169): the design must be a dictionary with a
`components` list, and every component record must pass
`validate_components`. Returns the `(ok, message)` pair of the source. -/
def validate_design_data (design_data : JsonV) : Bool × String :=
  match design_data with
  | .jdict fields =>
      match jlookup fields "components" with
      | some (.jlist comps) => validate_components 0 comps
      | some _ => (false, "components must be a list")
      | none => (false, "Missing components field")
  | _ => (false, "Design data must be a dictionary")

/-- Concrete uuid supply used by the concrete-input theorems; only
freshness relative to the explicitly chosen ids below matters. -/
def uW : Nat → String := fun n => "u" ++ toString n

/-- Fixture: a well-formed serialized group record carrying every
required field with numeric geometry. -/
def group_record : List (String × JsonV) :=
  [("id", .jstr "g1"), ("type", .jstr "group"), ("x", .jnum 0), ("y", .jnum 0),
   ("width", .jnum 100), ("height", .jnum 100)]

/-- C3: the claim states that design-data validation accepts a component
record exactly when its type is one of the five known variants
(rectangle, button, input, text, group) with all required fields present
and numeric geometry. The code is wrong: `valid_types` in
`FileManager.validate_design_data` lists only four types, so a group
record that satisfies every other requirement — and that the
application's own serializer produces — is rejected, even though
`group` is a key of the `component_classes` factory. This theorem
evaluates the validator at such a record. -/
theorem C3_validator_rejects_known_group_record :
    (validate_design_data (.jdict [("components", .jlist [.jdict group_record])])).1 = false
    ∧ "group" ∈ component_class_keys
    ∧ (required_fields.all (fun f => (jlookup group_record f).isSome)) = true
    ∧ (["x", "y", "width", "height"].all
        (fun f => is_numeric ((jlookup group_record f).getD .jnull))) = true := by
  decide

/-- Fixture: a group holding a single default rectangle, as built by the
group constructor; its bounds are (0, 0, 120, 80). -/
def gFix : Comp := GroupComponent [RectangleComponent "c1" 0 0] 0 0 "g1" "grp1"

/-- C4 counterexample: `GroupComponent.resize` does not clamp the
group's own width/height, so resizing a group to 5×5 leaves its width at
5, below the claimed minimum of 10. -/
theorem C4_group_resize_breaks_min_size :
    (Comp.resize 5 5 gFix).base.width = 5 ∧ ¬(10 ≤ (Comp.resize 5 5 gFix).base.width) := by
  constructor
  · norm_num +decide [gFix, GroupComponent, calculate_bounds, RectangleComponent, base_init,
      Comp.base, Comp.resize]
  · norm_num +decide [gFix, GroupComponent, calculate_bounds, RectangleComponent, base_init,
      Comp.base, Comp.resize]

/-- C4 (amended): for every non-group component, `resize(w, h)` clamps
both axes to `max 10 _` (so the result is at least 10, and exactly 10
whenever the requested value is below 10); `GroupComponent.resize`
instead sets the group's own width and height to exactly the requested
values without clamping whenever it has children and nonzero current
size, so the ≥ 10 invariant after resize holds for every variant except
Group. -/
theorem C4_resize_min_size_amended :
    (∀ (c : Comp) (w h : Rat), c.is_group = false →
        (Comp.resize w h c).base.width = max 10 w ∧
        (Comp.resize w h c).base.height = max 10 h ∧
        10 ≤ (Comp.resize w h c).base.width ∧
        10 ≤ (Comp.resize w h c).base.height) ∧
    (∀ (b : BaseComponent) (gid : String) (ch : List Comp) (w h : Rat),
        ch ≠ [] → b.width ≠ 0 → b.height ≠ 0 →
        (Comp.resize w h (Comp.group b gid ch)).base.width = w ∧
        (Comp.resize w h (Comp.group b gid ch)).base.height = h) := by
  constructor
  · intro c w h hng
    cases c with
    | group b gid ch => simp [Comp.is_group] at hng
    | rectangle b =>
        simp [Comp.resize, Comp.withBase, Comp.base, le_max_left]
    | button b =>
        simp [Comp.resize, Comp.withBase, Comp.base, le_max_left]
    | inputField b pt pc =>
        simp [Comp.resize, Comp.withBase, Comp.base, le_max_left]
    | textLabel b ta =>
        simp [Comp.resize, Comp.withBase, Comp.base, le_max_left]
  · intro b gid ch w h hch hw hh
    have hne : ch.isEmpty = false := by
      cases ch with
      | nil => exact absurd rfl hch
      | cons c cs => rfl
    simp [Comp.resize, hne, hw, hh, Comp.base]

/-- Fixture: the base record of a concrete group used to witness the
group half of the amended C4 statement. -/
def bFix : BaseComponent := base_init "g1" 0 0 120 80 "Group (1 items)"

/-- C4 witness: the amended statement applied to a concrete rectangle
and to a concrete group. -/
theorem C4_resize_min_size_amended_witness :
    ((RectangleComponent "r1" 0 0).is_group = false ∧
      (Comp.resize 5 7 (RectangleComponent "r1" 0 0)).base.width = max 10 5) ∧
    (([RectangleComponent "c1" 0 0] : List Comp) ≠ [] ∧ bFix.width ≠ 0 ∧ bFix.height ≠ 0 ∧
      (Comp.resize 5 5 (Comp.group bFix "grp1" [RectangleComponent "c1" 0 0])).base.width = 5) :=
  ⟨⟨rfl, (C4_resize_min_size_amended.1 (RectangleComponent "r1" 0 0) 5 7 rfl).1⟩,
   ⟨by simp, by decide, by decide,
    (C4_resize_min_size_amended.2 bFix "grp1" [RectangleComponent "c1" 0 0] 5 5
      (by simp) (by decide) (by decide)).1⟩⟩

/-- The running minimum of a left fold is bounded by its seed. -/
theorem foldl_min_le_init (f : Comp → Rat) :
    ∀ (l : List Comp) (a : Rat), l.foldl (fun m c => min m (f c)) a ≤ a := by
  intro l
  induction l with
  | nil => simp
  | cons c cs ih =>
      intro a
      calc (c :: cs).foldl (fun m c => min m (f c)) a
            = cs.foldl (fun m c => min m (f c)) (min a (f c)) := by simp
        _ ≤ min a (f c) := ih _
        _ ≤ a := min_le_left _ _

/-- The running minimum of a left fold is bounded by every element. -/
theorem foldl_min_le_mem (f : Comp → Rat) :
    ∀ (l : List Comp) (a : Rat) (c : Comp), c ∈ l →
      l.foldl (fun m c => min m (f c)) a ≤ f c := by
  intro l
  induction l with
  | nil => intro a c hc; simp at hc
  | cons d ds ih =>
      intro a c hc
      rcases List.mem_cons.mp hc with h | h
      · subst h
        calc (c :: ds).foldl (fun m c => min m (f c)) a
              = ds.foldl (fun m c => min m (f c)) (min a (f c)) := by simp
          _ ≤ min a (f c) := foldl_min_le_init f ds _
          _ ≤ f c := min_le_right _ _
      · simpa using ih (min a (f d)) c h

/-- The running minimum of a left fold is attained at the seed or at
some element. -/
theorem foldl_min_attained (f : Comp → Rat) :
    ∀ (l : List Comp) (a : Rat),
      l.foldl (fun m c => min m (f c)) a = a ∨
        ∃ c ∈ l, l.foldl (fun m c => min m (f c)) a = f c := by
  intro l
  induction l with
  | nil => intro a; left; rfl
  | cons d ds ih =>
      intro a
      have hfold : (d :: ds).foldl (fun m c => min m (f c)) a
          = ds.foldl (fun m c => min m (f c)) (min a (f d)) := by simp
      rcases ih (min a (f d)) with h | ⟨c, hc, h⟩
      · rcases min_cases a (f d) with ⟨hm, _⟩ | ⟨hm, _⟩
        · left; rw [hfold, h, hm]
        · right; exact ⟨d, List.mem_cons_self d ds, by rw [hfold, h, hm]⟩
      · right; exact ⟨c, List.mem_cons_of_mem d hc, by rw [hfold, h]⟩

/-- The running maximum of a left fold is bounded below by its seed. -/
theorem foldl_max_ge_init (f : Comp → Rat) :
    ∀ (l : List Comp) (a : Rat), a ≤ l.foldl (fun m c => max m (f c)) a := by
  intro l
  induction l with
  | nil => simp
  | cons c cs ih =>
      intro a
      calc a ≤ max a (f c) := le_max_left _ _
        _ ≤ cs.foldl (fun m c => max m (f c)) (max a (f c)) := ih _
        _ = (c :: cs).foldl (fun m c => max m (f c)) a := by simp

/-- The running maximum of a left fold dominates every element. -/
theorem foldl_max_ge_mem (f : Comp → Rat) :
    ∀ (l : List Comp) (a : Rat) (c : Comp), c ∈ l →
      f c ≤ l.foldl (fun m c => max m (f c)) a := by
  intro l
  induction l with
  | nil => intro a c hc; simp at hc
  | cons d ds ih =>
      intro a c hc
      rcases List.mem_cons.mp hc with h | h
      · subst h
        calc f c ≤ max a (f c) := le_max_right _ _
          _ ≤ ds.foldl (fun m c => max m (f c)) (max a (f c)) := foldl_max_ge_init f ds _
          _ = (c :: ds).foldl (fun m c => max m (f c)) a := by simp
      · simpa using ih (max a (f d)) c h

/-- The running maximum of a left fold is attained at the seed or at
some element. -/
theorem foldl_max_attained (f : Comp → Rat) :
    ∀ (l : List Comp) (a : Rat),
      l.foldl (fun m c => max m (f c)) a = a ∨
        ∃ c ∈ l, l.foldl (fun m c => max m (f c)) a = f c := by
  intro l
  induction l with
  | nil => intro a; left; rfl
  | cons d ds ih =>
      intro a
      have hfold : (d :: ds).foldl (fun m c => max m (f c)) a
          = ds.foldl (fun m c => max m (f c)) (max a (f d)) := by simp
      rcases ih (max a (f d)) with h | ⟨c, hc, h⟩
      · rcases max_cases a (f d) with ⟨hm, _⟩ | ⟨hm, _⟩
        · left; rw [hfold, h, hm]
        · right; exact ⟨d, List.mem_cons_self d ds, by rw [hfold, h, hm]⟩
      · right; exact ⟨c, List.mem_cons_of_mem d hc, by rw [hfold, h]⟩

/-- The children loop of `GroupComponent.move` is a pointwise map. -/
theorem move_list_eq_map (dx dy : Rat) :
    ∀ l : List Comp, Comp.move_list dx dy l = l.map (Comp.move dx dy) := by
  intro l
  induction l with
  | nil => rfl
  | cons c cs ih => simp [Comp.move_list, ih]

/-- Moving any component shifts its position by exactly the offset and
keeps its size. -/
theorem move_shifts_base (dx dy : Rat) (c : Comp) :
    (Comp.move dx dy c).base.x = c.base.x + dx ∧
    (Comp.move dx dy c).base.y = c.base.y + dy ∧
    (Comp.move dx dy c).base.width = c.base.width ∧
    (Comp.move dx dy c).base.height = c.base.height := by
  cases c <;> simp [Comp.move, Comp.withBase, Comp.base]

/-- C6: immediately after constructing a group from a non-empty list of
components, the group's (x, y, width, height) is the tight axis-aligned
bounding box of those components (every child lies inside it and each of
its four edges is attained by some child), and after moving the group by
(dx, dy) the group box keeps its size while its position — and every
child's position — shifts by exactly (dx, dy). -/
theorem C6_group_bbox_and_move (l : List Comp) (hl : l ≠ []) (x0 y0 : Rat)
    (cid gid : String) (dx dy : Rat) :
    let g := GroupComponent l x0 y0 cid gid
    (∀ c ∈ l, g.base.x ≤ c.base.x ∧ g.base.y ≤ c.base.y ∧
        c.base.x + c.base.width ≤ g.base.x + g.base.width ∧
        c.base.y + c.base.height ≤ g.base.y + g.base.height) ∧
    (∃ c ∈ l, c.base.x = g.base.x) ∧
    (∃ c ∈ l, c.base.y = g.base.y) ∧
    (∃ c ∈ l, c.base.x + c.base.width = g.base.x + g.base.width) ∧
    (∃ c ∈ l, c.base.y + c.base.height = g.base.y + g.base.height) ∧
    g.children_list = l ∧
    (Comp.move dx dy g).base.x = g.base.x + dx ∧
    (Comp.move dx dy g).base.y = g.base.y + dy ∧
    (Comp.move dx dy g).base.width = g.base.width ∧
    (Comp.move dx dy g).base.height = g.base.height ∧
    (Comp.move dx dy g).children_list = l.map (Comp.move dx dy) ∧
    (∀ c : Comp, (Comp.move dx dy c).base.x = c.base.x + dx ∧
        (Comp.move dx dy c).base.y = c.base.y + dy) := by
  cases l with
  | nil => exact absurd rfl hl
  | cons c0 cs =>
    intro g
    have hgx : g.base.x = cs.foldl (fun m d => min m d.base.x) c0.base.x := by
      simp [g, GroupComponent, calculate_bounds, base_init, Comp.base]
    have hgy : g.base.y = cs.foldl (fun m d => min m d.base.y) c0.base.y := by
      simp [g, GroupComponent, calculate_bounds, base_init, Comp.base]
    have hgw : g.base.width
        = cs.foldl (fun m d => max m (d.base.x + d.base.width)) (c0.base.x + c0.base.width)
          - cs.foldl (fun m d => min m d.base.x) c0.base.x := by
      simp [g, GroupComponent, calculate_bounds, base_init, Comp.base]
    have hgh : g.base.height
        = cs.foldl (fun m d => max m (d.base.y + d.base.height)) (c0.base.y + c0.base.height)
          - cs.foldl (fun m d => min m d.base.y) c0.base.y := by
      simp [g, GroupComponent, calculate_bounds, base_init, Comp.base]
    have hxw : g.base.x + g.base.width
        = cs.foldl (fun m d => max m (d.base.x + d.base.width)) (c0.base.x + c0.base.width) := by
      rw [hgx, hgw]; ring
    have hyh : g.base.y + g.base.height
        = cs.foldl (fun m d => max m (d.base.y + d.base.height)) (c0.base.y + c0.base.height) := by
      rw [hgy, hgh]; ring
    refine ⟨?_, ?_, ?_, ?_, ?_, ?_, ?_, ?_, ?_, ?_, ?_, ?_⟩
    · intro c hc
      rcases List.mem_cons.mp hc with h | h
      · subst h
        exact ⟨hgx ▸ foldl_min_le_init _ cs _, hgy ▸ foldl_min_le_init _ cs _,
          hxw ▸ foldl_max_ge_init _ cs _, hyh ▸ foldl_max_ge_init _ cs _⟩
      · exact ⟨hgx ▸ foldl_min_le_mem _ cs _ c h, hgy ▸ foldl_min_le_mem _ cs _ c h,
          hxw ▸ foldl_max_ge_mem _ cs _ c h, hyh ▸ foldl_max_ge_mem _ cs _ c h⟩
    · rcases foldl_min_attained (fun d => d.base.x) cs c0.base.x with h | ⟨c, hc, h⟩
      · exact ⟨c0, List.mem_cons_self _ _, by rw [hgx, h]⟩
      · exact ⟨c, List.mem_cons_of_mem _ hc, by rw [hgx, h]⟩
    · rcases foldl_min_attained (fun d => d.base.y) cs c0.base.y with h | ⟨c, hc, h⟩
      · exact ⟨c0, List.mem_cons_self _ _, by rw [hgy, h]⟩
      · exact ⟨c, List.mem_cons_of_mem _ hc, by rw [hgy, h]⟩
    · rcases foldl_max_attained (fun d => d.base.x + d.base.width) cs
          (c0.base.x + c0.base.width) with h | ⟨c, hc, h⟩
      · exact ⟨c0, List.mem_cons_self _ _, by rw [hxw, h]⟩
      · exact ⟨c, List.mem_cons_of_mem _ hc, by rw [hxw, h]⟩
    · rcases foldl_max_attained (fun d => d.base.y + d.base.height) cs
          (c0.base.y + c0.base.height) with h | ⟨c, hc, h⟩
      · exact ⟨c0, List.mem_cons_self _ _, by rw [hyh, h]⟩
      · exact ⟨c, List.mem_cons_of_mem _ hc, by rw [hyh, h]⟩
    · simp [g, GroupComponent, Comp.children_list]
    · simp [g, GroupComponent, Comp.move, Comp.base]
    · simp [g, GroupComponent, Comp.move, Comp.base]
    · simp [g, GroupComponent, Comp.move, Comp.base]
    · simp [g, GroupComponent, Comp.move, Comp.base]
    · simp [g, GroupComponent, Comp.move, Comp.children_list, move_list_eq_map]
    · intro c
      exact ⟨(move_shifts_base dx dy c).1, (move_shifts_base dx dy c).2.1⟩

/-- C6 witness: the bounding-box and move statement applied to a
concrete one-element component list. -/
theorem C6_group_bbox_and_move_witness :
    ([RectangleComponent "a" 1 2] : List Comp) ≠ [] ∧
    (let g := GroupComponent [RectangleComponent "a" 1 2] 0 0 "g" "gg"
     ∀ c ∈ [RectangleComponent "a" 1 2], g.base.x ≤ c.base.x ∧ g.base.y ≤ c.base.y ∧
        c.base.x + c.base.width ≤ g.base.x + g.base.width ∧
        c.base.y + c.base.height ≤ g.base.y + g.base.height) :=
  ⟨by simp,
   (C6_group_bbox_and_move [RectangleComponent "a" 1 2] (by simp) 0 0 "g" "gg" 3 4).1⟩

/-- Replacing the base fields leaves the stored base record. -/
theorem withBase_base (c : Comp) (b : BaseComponent) : (c.withBase b).base = b := by
  cases c <;> rfl

/-- Replacing the base fields keeps the children list. -/
theorem withBase_children (c : Comp) (b : BaseComponent) :
    (c.withBase b).children_list = c.children_list := by
  cases c <;> rfl

/-- Replacing the base fields keeps the variant discriminator. -/
theorem is_group_withBase (c : Comp) (b : BaseComponent) :
    (c.withBase b).is_group = c.is_group := by
  cases c <;> rfl

/-- The group constructor always yields the group variant. -/
theorem GroupComponent_is_group (l : List Comp) (x y : Rat) (cid gid : String) :
    (GroupComponent l x y cid gid).is_group = true := by
  cases l <;> rfl

/-- The group constructor stores the given children list unchanged. -/
theorem GroupComponent_children (l : List Comp) (x y : Rat) (cid gid : String) :
    (GroupComponent l x y cid gid).children_list = l := by
  cases l <;> rfl

/-- Deselecting every component of a list preserves each component's
`parent_group` pointwise. -/
theorem forall2_deselect (l : List Comp) :
    List.Forall₂ (fun orig ch => ch.base.parent_group = orig.base.parent_group) l
      (l.map (fun c => c.withBase { c.base with selected := false })) := by
  induction l with
  | nil => exact List.Forall₂.nil
  | cons c cs ih => exact List.Forall₂.cons (by rw [withBase_base]) ih

/-- C9 (implicit): `group_selected_components` builds the group by
passing the selection directly to the `GroupComponent` constructor,
which never sets the children's `parent_group` back-reference (only
`add_child` does); consequently, immediately after grouping, every child
of the returned group still has its previous `parent_group` — in
particular, for root components (whose `parent_group` is unset),
`is_component_grouped` returns `False` for every child. -/
theorem C9_grouping_leaves_children_ungrouped (m : CanvasManager) (u : Nat → String) (k : Nat)
    (h2 : 2 ≤ m.selected_components.length)
    (hroot : ∀ c ∈ m.selected_components, c.base.parent_group = none) :
    ∃ g, (m.group_selected_components u k).2 = some g ∧
      g.is_group = true ∧
      g.children_list.length = m.selected_components.length ∧
      List.Forall₂ (fun orig ch => ch.base.parent_group = orig.base.parent_group)
        m.selected_components g.children_list ∧
      (∀ c ∈ g.children_list, CanvasManager.is_component_grouped c = false) := by
  rcases hsel : m.selected_components with _ | ⟨s0, srest⟩
  · rw [hsel] at h2; simp at h2
  · have hlt2 : ¬((s0 :: srest).length < 2) := by rw [← hsel]; omega
    have hres : (m.group_selected_components u k).2
        = some ((GroupComponent ((s0 :: srest).map
              (fun c => c.withBase { c.base with selected := false })) 0 0 (u k) (u (k + 1))).withBase
            { (GroupComponent (s0 :: srest) 0 0 (u k) (u (k + 1))).base with selected := true }) := by
      simp only [CanvasManager.group_selected_components, hsel, if_neg hlt2]
    refine ⟨_, hres, ?_, ?_, ?_, ?_⟩
    · rw [is_group_withBase, GroupComponent_is_group]
    · rw [withBase_children, GroupComponent_children]
      simp
    · rw [withBase_children, GroupComponent_children]
      exact forall2_deselect (s0 :: srest)
    · rw [withBase_children, GroupComponent_children]
      intro c hc
      rcases List.mem_map.mp hc with ⟨o, ho, rfl⟩
      have hpg : o.base.parent_group = none := hroot o (by rw [hsel]; exact ho)
      simp [CanvasManager.is_component_grouped, withBase_base, hpg]

/-- Fixture: a manager with two root rectangles multi-selected. -/
def mW9 : CanvasManager :=
  { CanvasManager.init with
    components := [RectangleComponent "r1" 0 0, RectangleComponent "r2" 300 0]
    selected_components := [RectangleComponent "r1" 0 0, RectangleComponent "r2" 300 0] }

/-- C9 witness: grouping the two selected rectangles of `mW9`. -/
theorem C9_grouping_leaves_children_ungrouped_witness :
    2 ≤ mW9.selected_components.length ∧
    (∀ c ∈ mW9.selected_components, c.base.parent_group = none) ∧
    ∃ g, (mW9.group_selected_components uW 0).2 = some g ∧
      g.is_group = true ∧
      g.children_list.length = mW9.selected_components.length ∧
      List.Forall₂ (fun orig ch => ch.base.parent_group = orig.base.parent_group)
        mW9.selected_components g.children_list ∧
      (∀ c ∈ g.children_list, CanvasManager.is_component_grouped c = false) :=
  ⟨by decide, by decide,
   C9_grouping_leaves_children_ungrouped mW9 uW 0 (by decide) (by decide)⟩

/-- Whether a serialized record names a type known to the factory
(`comp_data.get('type') in self.component_classes`). -/
def known_type_record (fields : List (String × JsonV)) : Bool :=
  match jlookup fields "type" with
  | some (.jstr t) => component_class_keys.contains t
  | _ => false

/-- Every key of the factory dictionary has a default constructor. -/
theorem component_class_default_isSome (t cid gid : String)
    (ht : t ∈ component_class_keys) : (component_class_default t cid gid).isSome = true := by
  fin_cases ht <;> rfl

/-- The reconstruction loop produces exactly one component per record
with a known type and skips every other record. -/
theorem build_components_length (u : Nat → String) :
    ∀ (recs : List (List (String × JsonV))) (k : Nat),
      (build_components u k (recs.map JsonV.jdict)).length
        = (recs.filter known_type_record).length := by
  intro recs
  induction recs with
  | nil => intro k; rfl
  | cons f rs ih =>
      intro k
      simp only [List.map_cons, build_components]
      cases hty : jlookup f "type" with
      | none =>
          have hk : known_type_record f = false := by simp [known_type_record, hty]
          simp [hty, List.filter_cons, hk, ih]
      | some v =>
          cases v with
          | jstr t =>
              by_cases hmem : t ∈ component_class_keys
              · have hsome := component_class_default_isSome t (u k) (u (k + 1)) hmem
                cases hd : component_class_default t (u k) (u (k + 1)) with
                | none => rw [hd] at hsome; simp at hsome
                | some fresh =>
                    have hk : known_type_record f = true := by
                      simp [known_type_record, hty]
                      exact hmem
                    simp [hty, if_pos hmem, hd, List.filter_cons, hk, ih]
              · have hk : known_type_record f = false := by
                  simp [known_type_record, hty]
                  exact hmem
                simp [hty, if_neg hmem, List.filter_cons, hk, ih]
          | jnull =>
              have hk : known_type_record f = false := by simp [known_type_record, hty]
              simp [hty, List.filter_cons, hk, ih]
          | jbool b =>
              have hk : known_type_record f = false := by simp [known_type_record, hty]
              simp [hty, List.filter_cons, hk, ih]
          | jnum q =>
              have hk : known_type_record f = false := by simp [known_type_record, hty]
              simp [hty, List.filter_cons, hk, ih]
          | jlist items =>
              have hk : known_type_record f = false := by simp [known_type_record, hty]
              simp [hty, List.filter_cons, hk, ih]
          | jdict fs =>
              have hk : known_type_record f = false := by simp [known_type_record, hty]
              simp [hty, List.filter_cons, hk, ih]

/-- C10 (implicit): the document-level loader never fails on a component
record with a missing or unknown type — it silently skips such records
and loads exactly the records whose type is a factory key — and it
always ends with a cleared undo history and the cursor reset to −1,
whatever manager state and design data it was given. -/
theorem C10_load_design_skips_unknown_and_resets_history (m : CanvasManager)
    (u : Nat → String) (k : Nat) (d : JsonV) (recs : List (List (String × JsonV))) :
    ((m.load_design u k d).history = [] ∧ (m.load_design u k d).history_index = -1) ∧
    (m.load_design u k (.jdict [("components", .jlist (recs.map JsonV.jdict))])).components.length
      = (recs.filter known_type_record).length := by
  constructor
  · exact ⟨rfl, rfl⟩
  · simp only [CanvasManager.load_design, CanvasManager.clear_canvas]
    simp [components_records, jlookup, build_components_length u recs k]

/-- An overwrite-on-match left fold keeps the candidate of the last
matching element: it equals the first match over the reversed list,
falling back to the seed. -/
theorem foldl_overwrite (f : Comp → Option Rat) :
    ∀ (l : List Comp) (init : Option Rat),
      l.foldl (fun a o => match f o with | some v => some v | none => a) init
        = match l.reverse.findSome? f with | some v => some v | none => init := by
  intro l
  induction l with
  | nil => intro init; rfl
  | cons c cs ih =>
      intro init
      rw [List.foldl_cons, ih]
      rw [List.reverse_cons, List.findSome?_append]
      cases hcs : cs.reverse.findSome? f with
      | some v => simp [Option.or]
      | none =>
          cases hc : f c with
          | some v => simp [Option.or, List.findSome?, hc]
          | none => simp [Option.or, List.findSome?, hc]

/-- The two accumulators of the snap loop evolve independently, over the
other components with the target itself filtered out. -/
theorem foldl_pair_skip (tid : String) (fx fy : Comp → Option Rat) :
    ∀ (l : List Comp) (a : Option Rat × Option Rat),
      l.foldl (fun acc o =>
          if o.base.id = tid then acc
          else (match fx o with | some v => some v | none => acc.1,
                match fy o with | some v => some v | none => acc.2)) a
        = ((l.filter fun o => !(o.base.id == tid)).foldl
             (fun a1 o => match fx o with | some v => some v | none => a1) a.1,
           (l.filter fun o => !(o.base.id == tid)).foldl
             (fun a2 o => match fy o with | some v => some v | none => a2) a.2) := by
  intro l
  induction l with
  | nil => intro a; rfl
  | cons o os ih =>
      intro a
      by_cases h : o.base.id = tid
      · have hb : (!(o.base.id == tid)) = false := by simp [h]
        simp only [List.foldl_cons, if_pos h, List.filter_cons, hb, Bool.false_eq_true,
          if_false]
        exact ih a
      · have hb : (!(o.base.id == tid)) = true := by simp [h]
        simp only [List.foldl_cons, if_neg h, List.filter_cons, hb, if_true]
        exact ih _

/-- C5 (amended): `snap_to_components` checks each axis independently
against every other component within the threshold, with per-component
check priority left-edge, right-edge, left-to-right-edge,
right-to-left-edge for X (analogously for Y); when several other
components match on an axis, the candidate of the LAST matching
component in iteration order wins (each later match overwrites the
earlier candidate — equivalently, the first match over the reversed
iteration order); an axis with any match is snapped, and when neither
axis matches the position is unchanged and the call reports failure. -/
theorem C5_snap_last_match_wins (target : Comp) (others : List Comp) (d : Rat) :
    snap_to_components target others d
      = (let others2 := others.filter fun o => !(o.base.id == target.base.id)
         let sx := others2.reverse.findSome?
           (snap_candidate_x d target.base.x target.base.width)
         let sy := others2.reverse.findSome?
           (snap_candidate_y d target.base.y target.base.height)
         if sx.isSome ∨ sy.isSome
           then (target.set_position (sx.getD target.base.x) (sy.getD target.base.y), true)
           else (target, false)) := by
  simp only [snap_to_components]
  rw [foldl_pair_skip target.base.id
    (snap_candidate_x d target.base.x target.base.width)
    (snap_candidate_y d target.base.y target.base.height),
    foldl_overwrite, foldl_overwrite]
  generalize ((others.filter fun o => !(o.base.id == target.base.id)).reverse.findSome?
      (snap_candidate_x d target.base.x target.base.width)) = sx
  generalize ((others.filter fun o => !(o.base.id == target.base.id)).reverse.findSome?
      (snap_candidate_y d target.base.y target.base.height)) = sy
  cases sx <;> cases sy <;> simp

/-- Fixtures for the C5 counterexample: a target at x = 0 and two other
components both within the 10-unit threshold of the target's left edge,
at x = 3 (earlier in iteration order) and x = 7 (later). -/
def tSnap : Comp := RectangleComponent "t0" 0 0

def oSnapA : Comp := RectangleComponent "oa" 3 300

def oSnapB : Comp := RectangleComponent "ob" 7 600

/-- C5 counterexample: with two matching components, the snap position
comes from the last match in iteration order (x = 7), not from the first
match (x = 3) as the claim states. -/
theorem C5_snap_first_match_counterexample :
    (snap_to_components tSnap [oSnapA, oSnapB] 10).1.base.x = 7 ∧
    ¬((snap_to_components tSnap [oSnapA, oSnapB] 10).1.base.x = 3) := by
  constructor
  · norm_num +decide [tSnap, oSnapA, oSnapB, RectangleComponent, base_init, Comp.base,
      snap_to_components, snap_candidate_x, snap_candidate_y, Comp.set_position,
      Comp.withBase, abs]
  · norm_num +decide [tSnap, oSnapA, oSnapB, RectangleComponent, base_init, Comp.base,
      snap_to_components, snap_candidate_x, snap_candidate_y, Comp.set_position,
      Comp.withBase, abs]

/-- The group constructor stores the drawn uuid as the component id. -/
theorem GroupComponent_id (l : List Comp) (x y : Rat) (cid gid : String) :
    (GroupComponent l x y cid gid).base.id = cid := by
  cases l <;> rfl

/-- A cloned non-group component equals the original with a fresh id,
position offset by (20, 20), a cleared selection flag and no group
back-reference; every serialized field is copied. -/
theorem clone_leaf (u : Nat → String) (k : Nat) (c : Comp) (hng : c.is_group = false) :
    (Comp.clone u k c).1
      = c.withBase { c.base with
          id := u k
          x := c.base.x + 20
          y := c.base.y + 20
          selected := false
          parent_group := none } := by
  cases c with
  | group b gid ch => simp [Comp.is_group] at hng
  | rectangle b =>
      simp +decide [Comp.clone, Comp.to_dict, base_to_dict, setKey, Comp.from_dict,
        component_class_default, Comp.get_component_type, RectangleComponent, base_init,
        getNum, getStr, jlookup, List.lookup, Comp.base, Comp.withBase]
  | button b =>
      simp +decide [Comp.clone, Comp.to_dict, base_to_dict, setKey, Comp.from_dict,
        component_class_default, Comp.get_component_type, ButtonComponent, base_init,
        getNum, getStr, jlookup, List.lookup, Comp.base, Comp.withBase]
  | inputField b pt pc =>
      simp +decide [Comp.clone, Comp.to_dict, base_to_dict, setKey, Comp.from_dict,
        component_class_default, Comp.get_component_type, InputFieldComponent, base_init,
        getNum, getStr, jlookup, List.lookup, Comp.base, Comp.withBase]
  | textLabel b ta =>
      simp +decide [Comp.clone, Comp.to_dict, base_to_dict, setKey, Comp.from_dict,
        component_class_default, Comp.get_component_type, TextLabelComponent, base_init,
        getNum, getStr, jlookup, List.lookup, Comp.base, Comp.withBase]

/-- Every clone's id is drawn from the uuid supply. -/
theorem clone_id_supply (u : Nat → String) (k : Nat) (c : Comp) :
    ∃ n, ((Comp.clone u k c).1).base.id = u n := by
  cases c with
  | group b gid ch =>
      exact ⟨(Comp.clone_list u k ch).2, by simp [Comp.clone, GroupComponent_id]⟩
  | rectangle b => exact ⟨k, by rw [clone_leaf u k (Comp.rectangle b) rfl, withBase_base]⟩
  | button b => exact ⟨k, by rw [clone_leaf u k (Comp.button b) rfl, withBase_base]⟩
  | inputField b pt pc => exact ⟨k, by rw [clone_leaf u k (Comp.inputField b pt pc) rfl, withBase_base]⟩
  | textLabel b ta => exact ⟨k, by rw [clone_leaf u k (Comp.textLabel b ta) rfl, withBase_base]⟩

/-- Unfolding of the clone comprehension on a cons cell. -/
theorem clone_list_cons (u : Nat → String) (k : Nat) (c : Comp) (cs : List Comp) :
    Comp.clone_list u k (c :: cs)
      = ((Comp.clone u k c).1 :: (Comp.clone_list u ((Comp.clone u k c).2) cs).1,
         (Comp.clone_list u ((Comp.clone u k c).2) cs).2) := rfl

/-- Pointwise description of the recursively cloned children: every
clone's id comes from the supply, and every non-group child is cloned to
itself with a fresh id, offset by (20, 20), deselected and without group
back-reference. -/
theorem clone_list_forall2 (u : Nat → String) :
    ∀ (l : List Comp) (k : Nat),
      List.Forall₂ (fun orig cl =>
          (∃ n, cl.base.id = u n) ∧
          (orig.is_group = false → ∃ n, cl
            = orig.withBase { orig.base with
                id := u n
                x := orig.base.x + 20
                y := orig.base.y + 20
                selected := false
                parent_group := none }))
        l (Comp.clone_list u k l).1 := by
  intro l
  induction l with
  | nil => intro k; exact List.Forall₂.nil
  | cons c cs ih =>
      intro k
      rw [clone_list_cons]
      exact List.Forall₂.cons
        ⟨clone_id_supply u k c, fun hng => ⟨k, clone_leaf u k c hng⟩⟩
        (ih ((Comp.clone u k c).2))

/-- A left fold of running minima commutes with a uniform shift of the
seed and of every element's key. -/
theorem foldl_min_shift (f : Comp → Rat) (t : Rat) :
    ∀ (l l2 : List Comp), List.Forall₂ (fun a b => f b = f a + t) l l2 →
      ∀ (a : Rat), l2.foldl (fun m c => min m (f c)) (a + t)
        = l.foldl (fun m c => min m (f c)) a + t := by
  intro l l2 h
  induction h with
  | nil => intro a; rfl
  | cons hab hrest ih =>
      intro a
      simp only [List.foldl_cons]
      rw [hab, min_add_add_right]
      exact ih _

/-- A left fold of running maxima commutes with a uniform shift of the
seed and of every element's key. -/
theorem foldl_max_shift (f : Comp → Rat) (t : Rat) :
    ∀ (l l2 : List Comp), List.Forall₂ (fun a b => f b = f a + t) l l2 →
      ∀ (a : Rat), l2.foldl (fun m c => max m (f c)) (a + t)
        = l.foldl (fun m c => max m (f c)) a + t := by
  intro l l2 h
  induction h with
  | nil => intro a; rfl
  | cons hab hrest ih =>
      intro a
      simp only [List.foldl_cons]
      rw [hab, max_add_add_right]
      exact ih _

/-- Restriction of a pointwise relation under a premise that holds for
every left element. -/
theorem forall2_restrict {P R : Comp → Comp → Prop} {Q : Comp → Prop} :
    ∀ {l l2 : List Comp}, List.Forall₂ P l l2 → (∀ a ∈ l, Q a) →
      (∀ a b, Q a → P a b → R a b) → List.Forall₂ R l l2 := by
  intro l l2 h
  induction h with
  | nil => intro _ _; exact List.Forall₂.nil
  | cons hab hrest ih =>
      intro hall himp
      exact List.Forall₂.cons
        (himp _ _ (hall _ (List.mem_cons_self _ _)) hab)
        (ih (fun a ha => hall a (List.mem_cons_of_mem _ ha)) himp)

/-- Style, selection and text fields assigned by the group constructor:
always the `BaseComponent.__init__` defaults plus the group default
text, whatever the children. -/
theorem GroupComponent_style (l : List Comp) (x y : Rat) (cid gid : String) :
    (GroupComponent l x y cid gid).base.fill_color = "#3b82f6" ∧
    (GroupComponent l x y cid gid).base.border_color = "#1e40af" ∧
    (GroupComponent l x y cid gid).base.border_width = 2 ∧
    (GroupComponent l x y cid gid).base.text_color = "#ffffff" ∧
    (GroupComponent l x y cid gid).base.font_family = "Arial" ∧
    (GroupComponent l x y cid gid).base.font_size = 12 ∧
    (GroupComponent l x y cid gid).base.font_weight = "normal" ∧
    (GroupComponent l x y cid gid).base.corner_radius = 0 ∧
    (GroupComponent l x y cid gid).base.opacity = 1 ∧
    (GroupComponent l x y cid gid).base.selected = false ∧
    (GroupComponent l x y cid gid).base.text
      = "Group (" ++ toString l.length ++ " items)" := by
  cases l <;> simp [GroupComponent, base_init, Comp.base, calculate_bounds]

/-- Fixture: a group whose fill color was changed after construction
(as the properties panel or a loaded record does); obtained from `gFix`
through `from_dict` on a partial record. -/
def gSt : Comp := Comp.from_dict "fg" [("fill_color", .jstr "#ff0000")] gFix

/-- C7 counterexample: cloning a group does not copy its style fields —
`GroupComponent.clone` rebuilds the group through the constructor, which
resets the fill color to the default, so a group with a customized fill
color violates the claimed all-other-fields-equal law. -/
theorem C7_group_clone_resets_style_counterexample :
    gSt.base.fill_color = "#ff0000" ∧
    ((Comp.clone uW 0 gSt).1).base.fill_color = "#3b82f6" ∧
    ¬(((Comp.clone uW 0 gSt).1).base.fill_color = gSt.base.fill_color) := by
  refine ⟨?_, ?_, ?_⟩ <;>
    norm_num +decide [gSt, gFix, GroupComponent, calculate_bounds, RectangleComponent,
      base_init, Comp.base, Comp.withBase, Comp.from_dict, getNum, getStr, jlookup,
      List.lookup, Comp.clone, Comp.clone_list, Comp.to_dict, base_to_dict, setKey,
      component_class_default, Comp.get_component_type, uW]

/-- C7 (amended): `clone` draws every new id from the uuid supply. For a
non-group component the clone is the original with a fresh id, position
offset by exactly (+20, +20), selection cleared and no group
back-reference — all serialized fields (width, height, text, styles and
variant extras) equal — and its id differs from the original's whenever
the drawn uuid does. For a Group, the clone is rebuilt by the
constructor from the recursively cloned children: each non-group child
is cloned by the same law, every clone id comes from the supply, but the
group's own text and style fields are reset to the constructor defaults
rather than copied, and its geometry is recomputed from the cloned
children — equal to (x+20, y+20, width, height) when the group's box is
the bounding box of its (non-group) children. -/
theorem C7_clone_amended (u : Nat → String) (k : Nat) (c : Comp) :
    (c.is_group = false →
      (Comp.clone u k c).1
        = c.withBase { c.base with
            id := u k
            x := c.base.x + 20
            y := c.base.y + 20
            selected := false
            parent_group := none } ∧
      (u k ≠ c.base.id → ((Comp.clone u k c).1).base.id ≠ c.base.id)) ∧
    (∃ n, ((Comp.clone u k c).1).base.id = u n) ∧
    (∀ b gid ch, c = Comp.group b gid ch →
      ((Comp.clone u k c).1).is_group = true ∧
      ((Comp.clone u k c).1).base.fill_color = "#3b82f6" ∧
      ((Comp.clone u k c).1).base.border_color = "#1e40af" ∧
      ((Comp.clone u k c).1).base.font_family = "Arial" ∧
      ((Comp.clone u k c).1).base.text = "Group (" ++ toString ch.length ++ " items)" ∧
      ((Comp.clone u k c).1).children_list = (Comp.clone_list u k ch).1 ∧
      List.Forall₂ (fun orig cl =>
          (∃ n, cl.base.id = u n) ∧
          (orig.is_group = false → ∃ n, cl
            = orig.withBase { orig.base with
                id := u n
                x := orig.base.x + 20
                y := orig.base.y + 20
                selected := false
                parent_group := none }))
        ch ((Comp.clone u k c).1).children_list ∧
      (ch ≠ [] → (∀ d ∈ ch, d.is_group = false) →
        calculate_bounds ch = (b.x, b.y, b.width, b.height) →
        ((Comp.clone u k c).1).base.x = b.x + 20 ∧
        ((Comp.clone u k c).1).base.y = b.y + 20 ∧
        ((Comp.clone u k c).1).base.width = b.width ∧
        ((Comp.clone u k c).1).base.height = b.height)) := by
  refine ⟨?_, clone_id_supply u k c, ?_⟩
  · intro hng
    refine ⟨clone_leaf u k c hng, ?_⟩
    intro hne
    rw [clone_leaf u k c hng, withBase_base]
    exact hne
  · rintro b gid ch rfl
    have hclone : (Comp.clone u k (Comp.group b gid ch)).1
        = GroupComponent (Comp.clone_list u k ch).1 (b.x + 20) (b.y + 20)
            (u ((Comp.clone_list u k ch).2)) (u ((Comp.clone_list u k ch).2 + 1)) := rfl
    have hstyle := GroupComponent_style (Comp.clone_list u k ch).1 (b.x + 20) (b.y + 20)
      (u ((Comp.clone_list u k ch).2)) (u ((Comp.clone_list u k ch).2 + 1))
    have hlen : (Comp.clone_list u k ch).1.length = ch.length :=
      ((clone_list_forall2 u ch k).length_eq).symm
    refine ⟨?_, ?_, ?_, ?_, ?_, ?_, ?_, ?_⟩
    · rw [hclone, GroupComponent_is_group]
    · rw [hclone]; exact hstyle.1
    · rw [hclone]; exact hstyle.2.1
    · rw [hclone]; exact hstyle.2.2.2.2.1
    · rw [hclone]; rw [hstyle.2.2.2.2.2.2.2.2.2.2, hlen]
    · rw [hclone, GroupComponent_children]
    · rw [hclone, GroupComponent_children]; exact clone_list_forall2 u ch k
    · intro hch hleaf htight
      have hshift : List.Forall₂ (fun a cl =>
          cl.base.x = a.base.x + 20 ∧ cl.base.y = a.base.y + 20 ∧
          cl.base.width = a.base.width ∧ cl.base.height = a.base.height)
          ch (Comp.clone_list u k ch).1 := by
        refine forall2_restrict (clone_list_forall2 u ch k) hleaf ?_
        rintro a cl ha ⟨-, hcl⟩
        rcases hcl ha with ⟨n, rfl⟩
        rw [withBase_base]
        exact ⟨rfl, rfl, rfl, rfl⟩
      cases ch with
      | nil => exact absurd rfl hch
      | cons c0 cs =>
          have hcons : (Comp.clone_list u k (c0 :: cs)).1
              = (Comp.clone u k c0).1 :: (Comp.clone_list u ((Comp.clone u k c0).2) cs).1 := by
            rw [clone_list_cons]
          rw [hcons] at hshift
          rcases hshift with _ | ⟨⟨hx0, hy0, hw0, hh0⟩, htail⟩
          have hsx : List.Forall₂ (fun a b2 => b2.base.x = a.base.x + 20) cs
              (Comp.clone_list u ((Comp.clone u k c0).2) cs).1 :=
            htail.imp (fun _ _ h => h.1)
          have hsy : List.Forall₂ (fun a b2 => b2.base.y = a.base.y + 20) cs
              (Comp.clone_list u ((Comp.clone u k c0).2) cs).1 :=
            htail.imp (fun _ _ h => h.2.1)
          have hsxw : List.Forall₂
              (fun a b2 => b2.base.x + b2.base.width = a.base.x + a.base.width + 20) cs
              (Comp.clone_list u ((Comp.clone u k c0).2) cs).1 :=
            htail.imp (fun _ _ h => by rw [h.1, h.2.2.1]; ring)
          have hsyh : List.Forall₂
              (fun a b2 => b2.base.y + b2.base.height = a.base.y + a.base.height + 20) cs
              (Comp.clone_list u ((Comp.clone u k c0).2) cs).1 :=
            htail.imp (fun _ _ h => by rw [h.2.1, h.2.2.2]; ring)
          obtain ⟨ht1, ht2, ht3, ht4⟩ :
              (cs.foldl (fun m d => min m d.base.x) c0.base.x = b.x) ∧
              (cs.foldl (fun m d => min m d.base.y) c0.base.y = b.y) ∧
              (cs.foldl (fun m d => max m (d.base.x + d.base.width))
                  (c0.base.x + c0.base.width)
                - cs.foldl (fun m d => min m d.base.x) c0.base.x = b.width) ∧
              (cs.foldl (fun m d => max m (d.base.y + d.base.height))
                  (c0.base.y + c0.base.height)
                - cs.foldl (fun m d => min m d.base.y) c0.base.y = b.height) := by
            simpa [calculate_bounds, Prod.ext_iff] using htight
          have hgb : ∀ cid2 gid2,
              (GroupComponent ((Comp.clone u k c0).1
                  :: (Comp.clone_list u ((Comp.clone u k c0).2) cs).1)
                (b.x + 20) (b.y + 20) cid2 gid2).base.x
                = (Comp.clone_list u ((Comp.clone u k c0).2) cs).1.foldl
                    (fun m d => min m d.base.x) ((Comp.clone u k c0).1).base.x ∧
              (GroupComponent ((Comp.clone u k c0).1
                  :: (Comp.clone_list u ((Comp.clone u k c0).2) cs).1)
                (b.x + 20) (b.y + 20) cid2 gid2).base.y
                = (Comp.clone_list u ((Comp.clone u k c0).2) cs).1.foldl
                    (fun m d => min m d.base.y) ((Comp.clone u k c0).1).base.y ∧
              (GroupComponent ((Comp.clone u k c0).1
                  :: (Comp.clone_list u ((Comp.clone u k c0).2) cs).1)
                (b.x + 20) (b.y + 20) cid2 gid2).base.width
                = (Comp.clone_list u ((Comp.clone u k c0).2) cs).1.foldl
                    (fun m d => max m (d.base.x + d.base.width))
                    (((Comp.clone u k c0).1).base.x + ((Comp.clone u k c0).1).base.width)
                  - (Comp.clone_list u ((Comp.clone u k c0).2) cs).1.foldl
                      (fun m d => min m d.base.x) ((Comp.clone u k c0).1).base.x ∧
              (GroupComponent ((Comp.clone u k c0).1
                  :: (Comp.clone_list u ((Comp.clone u k c0).2) cs).1)
                (b.x + 20) (b.y + 20) cid2 gid2).base.height
                = (Comp.clone_list u ((Comp.clone u k c0).2) cs).1.foldl
                    (fun m d => max m (d.base.y + d.base.height))
                    (((Comp.clone u k c0).1).base.y + ((Comp.clone u k c0).1).base.height)
                  - (Comp.clone_list u ((Comp.clone u k c0).2) cs).1.foldl
                      (fun m d => min m d.base.y) ((Comp.clone u k c0).1).base.y := by
            intro cid2 gid2
            refine ⟨?_, ?_, ?_, ?_⟩ <;>
              simp [GroupComponent, calculate_bounds, base_init, Comp.base]
          rw [hclone, hcons]
          obtain ⟨hgx, hgy, hgw, hgh⟩ := hgb (u ((Comp.clone_list u k (c0 :: cs)).2))
            (u ((Comp.clone_list u k (c0 :: cs)).2 + 1))
          refine ⟨?_, ?_, ?_, ?_⟩
          · rw [hgx, hx0, foldl_min_shift (fun d => d.base.x) 20 cs _ hsx, ht1]
          · rw [hgy, hy0, foldl_min_shift (fun d => d.base.y) 20 cs _ hsy, ht2]
          · have hseed : ((Comp.clone u k c0).1).base.x + ((Comp.clone u k c0).1).base.width
                = c0.base.x + c0.base.width + 20 := by rw [hx0, hw0]; ring
            rw [hgw, hseed, hx0,
              foldl_max_shift (fun d => d.base.x + d.base.width) 20 cs _ hsxw,
              foldl_min_shift (fun d => d.base.x) 20 cs _ hsx, ← ht3]
            ring
          · have hseed : ((Comp.clone u k c0).1).base.y + ((Comp.clone u k c0).1).base.height
                = c0.base.y + c0.base.height + 20 := by rw [hy0, hh0]; ring
            rw [hgh, hseed, hy0,
              foldl_max_shift (fun d => d.base.y + d.base.height) 20 cs _ hsyh,
              foldl_min_shift (fun d => d.base.y) 20 cs _ hsy, ← ht4]
            ring

/-- Fixture: the base record of a default-constructed empty group. -/
def bEmpty : BaseComponent := base_init "g1" 0 0 100 100 "Group (0 items)"

/-- Fixture: an empty group in constructor form. -/
def gEmpty : Comp := Comp.group bEmpty "grp1" []

/-- C7 witness: the amended clone statement applied to a concrete
rectangle (non-group half) and to a concrete group (group half). -/
theorem C7_clone_amended_witness :
    ((RectangleComponent "r1" 5 6).is_group = false ∧
      uW 0 ≠ (RectangleComponent "r1" 5 6).base.id ∧
      ((Comp.clone uW 0 (RectangleComponent "r1" 5 6)).1).base.id
        ≠ (RectangleComponent "r1" 5 6).base.id) ∧
    (gEmpty = Comp.group bEmpty "grp1" [] ∧
      ((Comp.clone uW 0 gEmpty).1).is_group = true ∧
      ((Comp.clone uW 0 gEmpty).1).base.fill_color = "#3b82f6") :=
  ⟨⟨rfl, by decide,
    ((C7_clone_amended uW 0 (RectangleComponent "r1" 5 6)).1 rfl).2 (by decide)⟩,
   ⟨rfl, ((C7_clone_amended uW 0 gEmpty).2.2 bEmpty "grp1" [] rfl).1,
    ((C7_clone_amended uW 0 gEmpty).2.2 bEmpty "grp1" [] rfl).2.1⟩⟩

/-- C1: the claim states the undo/redo inverse law — undo after the n-th
mutating operation restores the serialized state captured before that
operation, and redo after that undo restores the state after it. The
code is wrong: `_save_state` snapshots only pre-mutation states and the
post-mutation state is never recorded, so after a single operation
`undo()` is a no-op (the cursor is at 0), after two operations `undo()`
restores the state before operation 1 (skipping the state before
operation 2), and `redo()` after that undo restores the state before —
not after — operation 2. This theorem evaluates the manager model on two
`add_component` calls. -/
theorem C1_undo_redo_off_by_one :
    -- state after op 1: one rectangle; the claim expects undo to restore
    -- the empty pre-op-1 document, but undo is a no-op
    ((CanvasManager.init.add_component "rectangle" 100 100 uW 0).1.components.length = 1 ∧
     ((CanvasManager.init.add_component "rectangle" 100 100 uW 0).1.undo uW 20).components.length
       = 1 ∧
     ((CanvasManager.init.add_component "rectangle" 100 100 uW 0).1.undo uW 20).history_index
       = 0) ∧
    -- state after op 2: two rectangles; the claim expects undo to restore
    -- the one-rectangle pre-op-2 state, but it restores the empty document
    (((( CanvasManager.init.add_component "rectangle" 100 100 uW 0).1.add_component
        "rectangle" 200 200 uW 10).1).components.length = 2 ∧
     ((((CanvasManager.init.add_component "rectangle" 100 100 uW 0).1.add_component
        "rectangle" 200 200 uW 10).1).undo uW 20).components.length = 0) ∧
    -- redo after that undo restores the one-rectangle pre-op-2 state, not
    -- the two-rectangle post-op-2 state
    (((((CanvasManager.init.add_component "rectangle" 100 100 uW 0).1.add_component
        "rectangle" 200 200 uW 10).1).undo uW 20).redo uW 30).components.length = 1 := by
  decide

/-- Fixture: a rectangle child for the round-trip document. -/
def childR : Comp := RectangleComponent "r1" 10 10

/-- Fixture: a one-group document whose group holds one rectangle. -/
def gOrig : Comp := GroupComponent [childR] 0 0 "g1" "grp1"

/-- Fixture: the manager holding the document to serialize. -/
def mOrig : CanvasManager := { CanvasManager.init with components := [gOrig] }

/-- C2: the claim states that loading the result of serializing any
document — including one containing a group, whose children subtree is
serialized recursively — yields an identical document. The code is
wrong: `GroupComponent.from_dict` leaves the children for the canvas
manager to reconstruct (its own comment says so), but
`CanvasManager.load_design` never reads the serialized `children`
field, so the reloaded group comes back with an empty children list and
the rectangle inside the group is lost. This theorem evaluates the
round trip on a one-group document. -/
theorem C2_roundtrip_drops_group_children :
    gOrig.children_list.length = 1 ∧
    (CanvasManager.init.load_design uW 0 mOrig.get_design_data).components.map
        Comp.get_component_type = ["group"] ∧
    (CanvasManager.init.load_design uW 0 mOrig.get_design_data).components.map
        (fun c => c.children_list.length) = [0] := by
  refine ⟨rfl, ?_, ?_⟩ <;>
    norm_num +decide [gOrig, childR, GroupComponent, calculate_bounds, RectangleComponent,
      base_init, mOrig, CanvasManager.init, CanvasManager.load_design,
      CanvasManager.clear_canvas, CanvasManager.get_design_data, Comp.to_dict,
      Comp.to_dict_list, base_to_dict, components_records, jlookup, List.lookup,
      build_components, component_class_keys, component_class_default, Comp.from_dict,
      getNum, getStr, Comp.base, Comp.get_component_type, Comp.children_list]

/-- The placement loop keeps the number of components. -/
theorem place_rest_length (sp : Rat) :
    ∀ (l : List Comp) (cur : Rat), (place_rest sp cur l).length = l.length := by
  intro l
  induction l with
  | nil => intro cur; rfl
  | cons c cs ih => intro cur; simp [place_rest, ih]

/-- Closed form of the placement loop: the j-th placed component sits at
the start position plus the widths of the components before it plus j
spacings. -/
theorem place_rest_x (sp : Rat) :
    ∀ (l : List Comp) (cur : Rat) (j : Nat),
      ((place_rest sp cur l)[j]?).map (fun c => c.base.x)
        = (l[j]?).map (fun _ =>
            cur + ((l.take j).map (fun d => d.base.width)).sum + (j : Rat) * sp) := by
  intro l
  induction l with
  | nil => intro cur j; simp [place_rest]
  | cons c cs ih =>
      intro cur j
      cases j with
      | zero =>
          simp [place_rest, Comp.set_position, withBase_base]
      | succ j' =>
          simp only [place_rest, List.getElem?_cons_succ, List.take_succ_cons,
            List.map_cons, List.sum_cons]
          rw [ih (cur + c.base.width + sp) j']
          cases hcs : cs[j']? with
          | none => rfl
          | some d =>
              simp only [Option.map_some']
              congr 1
              push_cast
              ring

/-- C8: distribute horizontal sorts the components by x, computes
`spacing = (span between outer edges − sum of widths) / (n − 1)`, leaves
the first (leftmost) component in place, positions component j at
`first.x + (sum of the widths of the j components before it) +
j·spacing` — so the middle of three lands at
`first.x + first.width + spacing` — and thereby leaves the last
(rightmost) component's position unchanged; fewer than 3 components is a
no-op returning failure. -/
theorem C8_distribute_horizontal_spec :
    (∀ l : List Comp, l.length < 3 → distribute_components l "horizontal" = (l, false)) ∧
    (∀ (l : List Comp) (first : Comp) (rest : List Comp),
      3 ≤ l.length → sortByX l = first :: rest →
      (sortByX l).Sorted xle ∧
      List.Perm (sortByX l) l ∧
      (let s := first :: rest
       let last := s.getLast (List.cons_ne_nil _ _)
       let spacing := (last.base.x + last.base.width - first.base.x
           - (s.map (fun c => c.base.width)).sum) / ((s.length - 1 : Nat) : Rat)
       distribute_components l "horizontal"
         = (first :: place_rest spacing (first.base.x + first.base.width + spacing) rest,
            true) ∧
       (distribute_components l "horizontal").1.length = l.length ∧
       (distribute_components l "horizontal").1.head? = some first ∧
       ((distribute_components l "horizontal").1.getLast?.map (fun c => c.base.x)
         = some last.base.x) ∧
       (∀ j : Nat, 0 < j → j < l.length →
         ((distribute_components l "horizontal").1[j]?).map (fun c => c.base.x)
           = some (first.base.x + ((s.take j).map (fun d => d.base.width)).sum
               + (j : Rat) * spacing)) ∧
       ((distribute_components l "horizontal").1[1]?).map (fun c => c.base.x)
         = some (first.base.x + first.base.width + spacing))) := by
  constructor
  · intro l h
    simp [distribute_components, h]
  · intro l first rest h3 hs
    refine ⟨List.sorted_insertionSort _ l, List.perm_insertionSort _ l, ?_⟩
    intro s last spacing
    have hlen : (sortByX l).length = l.length := (List.perm_insertionSort xle l).length_eq
    have hslen : rest.length + 1 = l.length := by
      have := hlen
      rw [hs] at this
      simpa using this
    have hne : rest ≠ [] := by
      cases rest with
      | nil => simp at hslen; omega
      | cons r1 rest2 => simp
    obtain ⟨r1, rest2, hrest⟩ : ∃ r1 rest2, rest = r1 :: rest2 := by
      cases rest with
      | nil => exact absurd rfl hne
      | cons r1 rest2 => exact ⟨r1, rest2, rfl⟩
    have hnl : ¬(l.length < 3) := by omega
    have hsplit : sortByX l = first :: r1 :: rest2 := by rw [hs, hrest]
    have hmain : distribute_components l "horizontal"
        = (first :: place_rest spacing (first.base.x + first.base.width + spacing) rest,
           true) := by
      simp only [distribute_components, if_neg hnl, if_pos, distribute_horizontal, hsplit]
      rw [← hrest]
    have hplen : (place_rest spacing (first.base.x + first.base.width + spacing) rest).length
        = rest.length := place_rest_length _ rest _
    -- the closed-form position of every component after the first
    have hj : ∀ j : Nat, 0 < j → j < l.length →
        ((distribute_components l "horizontal").1[j]?).map (fun c => c.base.x)
          = some (first.base.x + ((s.take j).map (fun d => d.base.width)).sum
              + (j : Rat) * spacing) := by
      intro j hj0 hjn
      cases j with
      | zero => omega
      | succ j' =>
          rw [hmain]
          simp only [List.getElem?_cons_succ]
          rw [place_rest_x spacing rest _ j']
          have hj' : j' < rest.length := by omega
          rw [List.getElem?_eq_getElem hj']
          simp only [Option.map_some']
          congr 1
          show first.base.x + first.base.width + spacing
              + ((rest.take j').map (fun d => d.base.width)).sum + (j' : Rat) * spacing
            = first.base.x + (((first :: rest).take (j' + 1)).map (fun d => d.base.width)).sum
              + ((j' + 1 : Nat) : Rat) * spacing
          simp only [List.take_succ_cons, List.map_cons, List.sum_cons]
          push_cast
          ring
    refine ⟨hmain, ?_, ?_, ?_, hj, ?_⟩
    · rw [hmain]
      simp [hplen]
      omega
    · rw [hmain]; rfl
    · -- the last component keeps its x position
      rw [List.getLast?_eq_getElem?]
      have hreslen : (distribute_components l "horizontal").1.length = l.length := by
        rw [hmain]; simp [hplen]; omega
      rw [hreslen]
      have hlast_idx : l.length - 1 = rest.length := by omega
      rw [hlast_idx]
      have hjlast := hj rest.length (by omega) (by omega)
      rw [hjlast]
      congr 1
      -- arithmetic: first.x + (S − last.width) + rest.length · spacing = last.x
      have hlast_cons : last = rest.getLast hne := List.getLast_cons hne
      have hrlpos0 : 0 < rest.length := by rw [hrest]; simp
      have htake : (first :: rest).take rest.length = first :: rest.dropLast := by
        obtain ⟨k, hk⟩ : ∃ k, rest.length = k + 1 := ⟨rest.length - 1, by omega⟩
        rw [hk, List.take_succ_cons]
        congr 1
        rw [List.dropLast_eq_take, hk]
        simp
      have hSsplit : ((rest.dropLast).map (fun d => d.base.width)).sum
            + (rest.getLast hne).base.width
          = (rest.map (fun d => d.base.width)).sum := by
        conv_rhs => rw [← List.dropLast_append_getLast hne]
        simp
      have hrl : ((first :: rest).length - 1 : Nat) = rest.length := by simp
      have hrlpos : 0 < rest.length := by omega
      have hcast : ((rest.length : Nat) : Rat) ≠ 0 := by
        exact_mod_cast Nat.pos_iff_ne_zero.mp hrlpos
      have hsp : ((rest.length : Nat) : Rat) * spacing
          = last.base.x + last.base.width - first.base.x
            - ((first :: rest).map (fun c => c.base.width)).sum := by
        show ((rest.length : Nat) : Rat)
            * ((last.base.x + last.base.width - first.base.x
                - ((first :: rest).map (fun c => c.base.width)).sum)
              / (((first :: rest).length - 1 : Nat) : Rat)) = _
        rw [hrl]
        field_simp
      rw [htake]
      simp only [List.map_cons, List.sum_cons]
      have : first.base.x + (first.base.width
            + ((rest.dropLast).map (fun d => d.base.width)).sum)
          + (rest.length : Rat) * spacing = last.base.x := by
        rw [hsp, hlast_cons]
        have hS : ((first :: rest).map (fun c => c.base.width)).sum
            = first.base.width + ((rest.dropLast).map (fun d => d.base.width)).sum
              + (rest.getLast hne).base.width := by
          simp only [List.map_cons, List.sum_cons]
          rw [← hSsplit]
          ring
        rw [hS]
        ring
      exact this
    · -- the middle of three: position formula at j = 1
      have h1 := hj 1 (by omega) (by omega)
      rw [h1]
      congr 1
      show first.base.x + (((first :: rest).take 1).map (fun d => d.base.width)).sum
          + ((1 : Nat) : Rat) * spacing = first.base.x + first.base.width + spacing
      simp

/-- Fixtures for the C8 witness: three rectangles with distinct x. -/
def dA : Comp := RectangleComponent "dA" 0 0

def dB : Comp := RectangleComponent "dB" 1000 0

def dC : Comp := RectangleComponent "dC" 500 0

def lW8 : List Comp := [dA, dB, dC]

/-- C8 witness: the no-op half applied to the empty list and the
distribution half applied to three concrete rectangles. -/
theorem C8_distribute_horizontal_spec_witness :
    (([] : List Comp).length < 3 ∧ distribute_components [] "horizontal" = ([], false)) ∧
    (3 ≤ lW8.length ∧ sortByX lW8 = dA :: [dC, dB] ∧
      (distribute_components lW8 "horizontal").1.head? = some dA) :=
  ⟨⟨by decide, C8_distribute_horizontal_spec.1 [] (by decide)⟩,
   ⟨by decide, by rfl,
    ((C8_distribute_horizontal_spec.2 lW8 dA [dC, dB] (by decide) (by rfl)).2.2).2.2.1⟩⟩
